import Mathlib

/-!
Verification of the batch-orchestration path of `aztfy` (`main.go`).

The material under analysis is the CLI entry point `main` (flag sanity
checks) and the quiet-mode orchestrator `batchImport`, which sequences
engine construction (`meta.NewMeta`), initialization (`Init`), discovery
(`ListResource`), a per-record import loop, and configuration generation
(`GenerateCfg`).  The engine itself lives in `internal/meta` and is not
part of the analysed source; its contract is modelled from the spec as an
abstract `World` of behaviours, and the orchestrator is embedded as a pure
function from a configuration, a world and the `continueOnError` flag to a
trace of engine calls and log events, the final record list, and an
optional terminal error.
-/

set_option autoImplicit false

namespace Aztfy

/-- A discovered resource record.  Mirrors the fields of
`meta.ImportItem` used by `batchImport`: `ResourceID`, the presence of a
mapping (which determines `Skip()`), the Terraform target address
(`TFAddr()`), and the import outcome `ImportError`.
Modelled from the spec: the concrete `meta.ImportItem` type is not under
the analysed source; per spec §3 a record carries an opaque resource ID,
a `mappingPresent` flag, a target address and an optional import error. -/
structure Record where
  resourceID : String
  mappingPresent : Bool
  targetAddress : String
  importError : Option String
deriving DecidableEq

/-- Modelled from the spec: `Skip()` of `meta.ImportItem` is not under the
analysed source; per spec §4.1 a record is skipped exactly when no mapping
is present. -/
def Record.skip (r : Record) : Bool := !r.mappingPresent

/-- Modelled from the spec: `TFAddr()` of `meta.ImportItem` is not under
the analysed source; per spec §3 it is the record's target address. -/
def Record.tfAddr (r : Record) : String := r.targetAddress

/-- The identity of a record apart from its mutable import outcome:
resource ID, mapping presence, target address. -/
def Record.base (r : Record) : String × Bool × String :=
  (r.resourceID, r.mappingPresent, r.targetAddress)

/-- Observable events of one `batchImport` run: engine calls and the log
lines the orchestrator emits.  Loop events carry the index of the record
in discovery order. -/
inductive Event where
  | newMetaCall : Event
  | initCall : Event
  | listCall : Event
  | warnSkip (i : Nat) (resourceID : String) : Event
  | importing (i : Nat) (resourceID addr : String) : Event
  | importCall (i : Nat) (resourceID : String) : Event
  | errorLog (i : Nat) (resourceID addr cause : String) : Event
  | generateCall (records : List Record) : Event
deriving DecidableEq

/-- Terminal errors a `batchImport` run can return, one constructor per
`return err` site in the source. -/
inductive RunError where
  | logOpenError (cause : String) : RunError
  | newMetaError (cause : String) : RunError
  | initError (cause : String) : RunError
  | importAbort (resourceID addr cause : String) : RunError
  | generateError (cause : String) : RunError
deriving DecidableEq

/-- The message text of a terminal error, following the format strings of
the source: `fmt.Sprintf("Failed to import %s as %s: %v", ...)` and
`fmt.Errorf("generating Terraform configuration: %v", err)`; the other
errors are returned unwrapped. -/
def RunError.render : RunError → String
  | .logOpenError cause => cause
  | .newMetaError cause => cause
  | .initError cause => cause
  | .importAbort resourceID addr cause =>
      "Failed to import " ++ resourceID ++ " as " ++ addr ++ ": " ++ cause
  | .generateError cause => "generating Terraform configuration: " ++ cause

/-- The slice of `config.Config` that `batchImport` reads directly: the
optional log-file path. -/
structure Config where
  logfile : String

/-- Modelled from the spec: the external collaborators of `batchImport`
(`os.OpenFile` on the log file, `meta.NewMeta`, `Meta.Init`,
`Meta.ListResource`, `Meta.Import`, `Meta.GenerateCfg`) are not under the
analysed source.  A `World` fixes their behaviour for one run: the
outcome of opening the log file, of engine construction and
initialization, the discovered record sequence, the per-record import
outcome (per spec §4.1 step 2, import mutates only the record's
`importError`, nil on success), and the generation outcome. -/
structure World where
  logOpenErr : Option String
  newMetaErr : Option String
  initErr : Option String
  resources : List Record
  importOutcome : Record → Option String
  generateErr : List Record → Option String

/-- The import loop of `batchImport` (`for i := range list`), embedded as
a recursion over the remaining records, threading the index of the
current record.  Returns the final state of the record list, the emitted
events in order, and the abort error if the loop returned early. -/
def importLoop (imp : Record → Option String) (continueOnError : Bool) :
    Nat → List Record → List Record × List Event × Option RunError
  | _, [] => ([], [], none)
  | i, r :: rest =>
    if r.skip then
      let (rs, evs, e) := importLoop imp continueOnError (i + 1) rest
      (r :: rs, Event.warnSkip i r.resourceID :: evs, e)
    else
      match imp r with
      | none =>
        let r' : Record := { r with importError := none }
        let (rs, evs, e) := importLoop imp continueOnError (i + 1) rest
        (r' :: rs,
         Event.importing i r.resourceID r.tfAddr ::
           Event.importCall i r.resourceID :: evs, e)
      | some cause =>
        let r' : Record := { r with importError := some cause }
        if continueOnError then
          let (rs, evs, e) := importLoop imp continueOnError (i + 1) rest
          (r' :: rs,
           Event.importing i r.resourceID r.tfAddr ::
             Event.importCall i r.resourceID ::
               Event.errorLog i r.resourceID r.tfAddr cause :: evs, e)
        else
          (r' :: rest,
           [Event.importing i r.resourceID r.tfAddr,
            Event.importCall i r.resourceID],
           some (RunError.importAbort r.resourceID r.tfAddr cause))

/-- Outcome of one `batchImport` run: the events in order, the state of
the record list when the function returned, and the terminal error
(`none` means the function returned `nil`). -/
structure RunResult where
  events : List Event
  finalList : List Record
  result : Option RunError
deriving DecidableEq

/-- Opening the log file: attempted only when `cfg.Logfile` is non-empty;
otherwise the stderr logger is used and no error can occur. -/
def logOpenResult (cfg : Config) (w : World) : Option String :=
  if cfg.logfile = "" then none else w.logOpenErr

/-- The orchestrator `batchImport` of `main.go`, embedded over a `World`
of collaborator behaviours.  Mirrors the source's sequencing: log-file
opening, `meta.NewMeta`, `c.Init()`, `c.ListResource()`, the import loop,
then `c.GenerateCfg(list)`. -/
def batchImport (cfg : Config) (w : World) (continueOnError : Bool) : RunResult :=
  match logOpenResult cfg w with
  | some e => ⟨[], [], some (RunError.logOpenError e)⟩
  | none =>
    match w.newMetaErr with
    | some e => ⟨[Event.newMetaCall], [], some (RunError.newMetaError e)⟩
    | none =>
      match w.initErr with
      | some e => ⟨[Event.newMetaCall, Event.initCall], [],
                   some (RunError.initError e)⟩
      | none =>
        let res := importLoop w.importOutcome continueOnError 0 w.resources
        let evs := Event.newMetaCall :: Event.initCall :: Event.listCall :: res.2.1
        match res.2.2 with
        | some e => ⟨evs, res.1, some e⟩
        | none =>
          match w.generateErr res.1 with
          | some e => ⟨evs ++ [Event.generateCall res.1], res.1,
                       some (RunError.generateError e)⟩
          | none => ⟨evs ++ [Event.generateCall res.1], res.1, none⟩

/-! ## The CLI entry point `main`: flag handling -/

/-- The parsed command-line state `main` begins with: the flag values and
the positional arguments left by `flag.Parse()`. -/
structure Flags where
  version : Bool
  outputDir : String
  mappingFile : String
  continueOnError : Bool
  quietMode : Bool
  pattern : String
  args : List String
deriving DecidableEq

/-- How the prefix of `main` up to (and including) the flag sanity checks
terminates: print version and exit 0, print usage and exit 1, print an
argument error and exit 1 (`fatal`), or fall through to engine work with
the resource-group argument. -/
inductive MainOutcome where
  | printVersionExit0 : MainOutcome
  | usageExit1 : MainOutcome
  | argErrorExit1 (msg : String) : MainOutcome
  | proceed (rg : String) : MainOutcome
deriving DecidableEq

/-- The usage text printed by `flag.Usage`. -/
def usageText : String := "aztfy [option] <resource group name>\n"

/-- The process exit code of an outcome; `none` when `main` continues to
engine work. -/
def MainOutcome.exitCode : MainOutcome → Option Nat
  | .printVersionExit0 => some 0
  | .usageExit1 => some 1
  | .argErrorExit1 _ => some 1
  | .proceed _ => none

/-- What the outcome writes to standard error (`fatal` prints the error;
`flag.Usage` prints to the default `flag` output, standard error; the
version is printed to standard output). -/
def MainOutcome.stderrText : MainOutcome → String
  | .printVersionExit0 => ""
  | .usageExit1 => usageText
  | .argErrorExit1 msg => msg
  | .proceed _ => ""

/-- Whether the outcome goes on to engine work (config construction and
the batch or UI path). -/
def MainOutcome.reachesEngine : MainOutcome → Bool
  | .proceed _ => true
  | _ => false

/-- The prefix of `main` from the version check through the flag sanity
checks, embedded directly from the source: version flag first, then the
positional-argument arity check, then `-q` without `-m`, then `-k`
without `-q`. -/
def mainRun (f : Flags) : MainOutcome :=
  if f.version then MainOutcome.printVersionExit0
  else if f.args.length ≠ 1 then MainOutcome.usageExit1
  else if f.quietMode ∧ f.mappingFile = "" then
    MainOutcome.argErrorExit1 "`-q` must be used together with `-m`"
  else if f.continueOnError ∧ !f.quietMode then
    MainOutcome.argErrorExit1 "`-k` must be used together with `-q`"
  else MainOutcome.proceed (f.args.headD "")

/-- Events that can be emitted by the import loop (as opposed to the
phase events surrounding it). -/
def Event.isLoopEvent : Event → Bool
  | .warnSkip _ _ => true
  | .importing _ _ _ => true
  | .importCall _ _ => true
  | .errorLog _ _ _ _ => true
  | _ => false

/-- Whether an event is an invocation of configuration generation. -/
def Event.isGenerate : Event → Bool
  | .generateCall _ => true
  | _ => false

/-- Whether an event is the discovery (`ListResource`) call. -/
def Event.isList : Event → Bool
  | .listCall => true
  | _ => false

/-! ## Concrete fixtures used by witnesses and counterexamples -/

/-- A mapped record that imports cleanly under `impFailB`. -/
def recA : Record := ⟨"A", true, "azurerm_resource.a", none⟩

/-- A mapped record whose import fails under `impFailB`. -/
def recB : Record := ⟨"B", true, "azurerm_resource.b", none⟩

/-- A mapped record that imports cleanly under `impFailB`. -/
def recC : Record := ⟨"C", true, "azurerm_resource.c", none⟩

/-- A record without mapping information: it is always skipped. -/
def recU : Record := ⟨"U", false, "", none⟩

/-- Import behaviour in which exactly the resource with ID `B` fails. -/
def impFailB : Record → Option String :=
  fun r => if r.resourceID = "B" then some "boom" else none

/-- A configuration without a log file. -/
def cfgPlain : Config := ⟨""⟩

/-- A healthy world discovering `[A, B, C]` where importing `B` fails. -/
def worldABC : World :=
  ⟨none, none, none, [recA, recB, recC], impFailB, fun _ => none⟩

/-- A world discovering `[B, U]`: a failing record followed by an
unmapped one. -/
def worldBU : World :=
  ⟨none, none, none, [recB, recU], impFailB, fun _ => none⟩

/-- Does the event list contain a skip warning for the record at
index `n`? -/
def hasWarnSkipAt (n : Nat) (evs : List Event) : Bool :=
  evs.any fun e =>
    match e with
    | .warnSkip m _ => m == n
    | _ => false

/-- Flags with the version flag set alongside an otherwise-invalid
combination (`-q` without `-m`). -/
def flagsVQ : Flags := ⟨true, "", "", false, true, "res-", ["rg"]⟩

/-- Flags using quiet mode without a mapping file. -/
def flagsQ : Flags := ⟨false, "", "", false, true, "res-", ["rg"]⟩

/-- Flags using continue-on-error without quiet mode. -/
def flagsK : Flags := ⟨false, "", "map.json", true, false, "res-", ["rg"]⟩

/-- A configuration with a log file configured. -/
def cfgLog : Config := ⟨"aztfy.log"⟩

/-- A world in which opening the log file fails. -/
def worldLogFail : World :=
  ⟨some "permission denied", none, none, [recA], impFailB, fun _ => none⟩

/-- A second healthy world over the same record sequence as `worldABC`
but with different generation behaviour. -/
def worldABC2 : World :=
  ⟨none, none, none, [recA, recB, recC], impFailB, fun _ => some "genfail"⟩

/-! ## Unfolding lemmas for the import loop -/

theorem importLoop_nil (imp : Record → Option String) (k : Bool) (i : Nat) :
    importLoop imp k i [] = ([], [], none) := rfl

theorem importLoop_cons_skip {imp : Record → Option String} {k : Bool} {i : Nat}
    {r : Record} {rest : List Record} (h : r.skip = true) :
    importLoop imp k i (r :: rest) =
      (r :: (importLoop imp k (i + 1) rest).1,
       Event.warnSkip i r.resourceID :: (importLoop imp k (i + 1) rest).2.1,
       (importLoop imp k (i + 1) rest).2.2) := by
  simp [importLoop, h]

theorem importLoop_cons_ok {imp : Record → Option String} {k : Bool} {i : Nat}
    {r : Record} {rest : List Record} (h : r.skip = false) (ho : imp r = none) :
    importLoop imp k i (r :: rest) =
      ({ r with importError := none } :: (importLoop imp k (i + 1) rest).1,
       Event.importing i r.resourceID r.tfAddr ::
         Event.importCall i r.resourceID :: (importLoop imp k (i + 1) rest).2.1,
       (importLoop imp k (i + 1) rest).2.2) := by
  simp [importLoop, h, ho]

theorem importLoop_cons_fail_continue {imp : Record → Option String} {i : Nat}
    {r : Record} {rest : List Record} {cause : String}
    (h : r.skip = false) (ho : imp r = some cause) :
    importLoop imp true i (r :: rest) =
      ({ r with importError := some cause } :: (importLoop imp true (i + 1) rest).1,
       Event.importing i r.resourceID r.tfAddr ::
         Event.importCall i r.resourceID ::
           Event.errorLog i r.resourceID r.tfAddr cause ::
             (importLoop imp true (i + 1) rest).2.1,
       (importLoop imp true (i + 1) rest).2.2) := by
  simp [importLoop, h, ho]

theorem importLoop_cons_fail_abort {imp : Record → Option String} {i : Nat}
    {r : Record} {rest : List Record} {cause : String}
    (h : r.skip = false) (ho : imp r = some cause) :
    importLoop imp false i (r :: rest) =
      ({ r with importError := some cause } :: rest,
       [Event.importing i r.resourceID r.tfAddr,
        Event.importCall i r.resourceID],
       some (RunError.importAbort r.resourceID r.tfAddr cause)) := by
  simp [importLoop, h, ho]

/-! ## Structural lemmas about the import loop -/

theorem importLoop_events_loop (imp : Record → Option String) (k : Bool) :
    ∀ (l : List Record) (i : Nat), ∀ e ∈ (importLoop imp k i l).2.1,
      e.isLoopEvent = true := by
  intro l
  induction l with
  | nil => intro i e he; simp [importLoop_nil] at he
  | cons r rest ih =>
    intro i e he
    cases hs : r.skip with
    | true =>
      rw [importLoop_cons_skip hs] at he
      rcases List.mem_cons.mp he with rfl | he'
      · rfl
      · exact ih (i + 1) e he'
    | false =>
      cases ho : imp r with
      | none =>
        rw [importLoop_cons_ok hs ho] at he
        rcases List.mem_cons.mp he with rfl | he'
        · rfl
        rcases List.mem_cons.mp he' with rfl | he2
        · rfl
        · exact ih (i + 1) e he2
      | some cause =>
        cases k with
        | true =>
          rw [importLoop_cons_fail_continue hs ho] at he
          rcases List.mem_cons.mp he with rfl | he'
          · rfl
          rcases List.mem_cons.mp he' with rfl | he2
          · rfl
          rcases List.mem_cons.mp he2 with rfl | he3
          · rfl
          · exact ih (i + 1) e he3
        | false =>
          rw [importLoop_cons_fail_abort hs ho] at he
          rcases List.mem_cons.mp he with rfl | he'
          · rfl
          rcases List.mem_cons.mp he' with rfl | he2
          · rfl
          · exact absurd he2 (List.not_mem_nil e)

theorem importLoop_no_generate (imp : Record → Option String) (k : Bool)
    (l : List Record) (i : Nat) (recs : List Record) :
    Event.generateCall recs ∉ (importLoop imp k i l).2.1 := by
  intro h
  have hclass := importLoop_events_loop imp k l i _ h
  simp [Event.isLoopEvent] at hclass

theorem importLoop_no_listCall (imp : Record → Option String) (k : Bool)
    (l : List Record) (i : Nat) :
    Event.listCall ∉ (importLoop imp k i l).2.1 := by
  intro h
  have hclass := importLoop_events_loop imp k l i _ h
  simp [Event.isLoopEvent] at hclass

/-- With `continueOnError = true` the loop never returns early. -/
theorem importLoop_continue_no_abort (imp : Record → Option String) :
    ∀ (l : List Record) (i : Nat), (importLoop imp true i l).2.2 = none := by
  intro l
  induction l with
  | nil => intro i; rfl
  | cons r rest ih =>
    intro i
    cases hs : r.skip with
    | true => rw [importLoop_cons_skip hs]; exact ih (i + 1)
    | false =>
      cases ho : imp r with
      | none => rw [importLoop_cons_ok hs ho]; exact ih (i + 1)
      | some cause => rw [importLoop_cons_fail_continue hs ho]; exact ih (i + 1)

/-- The loop preserves each record's identity (ID, mapping presence,
target address), the number of records, and their order: only
`importError` can change. -/
theorem importLoop_map_base (imp : Record → Option String) (k : Bool) :
    ∀ (l : List Record) (i : Nat),
      ((importLoop imp k i l).1).map Record.base = l.map Record.base := by
  intro l
  induction l with
  | nil => intro i; rfl
  | cons r rest ih =>
    intro i
    cases hs : r.skip with
    | true =>
      rw [importLoop_cons_skip hs]
      simp [ih (i + 1)]
    | false =>
      cases ho : imp r with
      | none =>
        rw [importLoop_cons_ok hs ho]
        simp [ih (i + 1), Record.base]
      | some cause =>
        cases k with
        | true =>
          rw [importLoop_cons_fail_continue hs ho]
          simp [ih (i + 1), Record.base]
        | false =>
          rw [importLoop_cons_fail_abort hs ho]
          simp [Record.base]

theorem importLoop_length (imp : Record → Option String) (k : Bool)
    (l : List Record) (i : Nat) :
    (importLoop imp k i l).1.length = l.length := by
  have h := congrArg List.length (importLoop_map_base imp k l i)
  simpa using h

/-- A record the loop skips is returned exactly as it was: in particular
its `importError` is never written. -/
theorem importLoop_skip_unchanged (imp : Record → Option String) (k : Bool) :
    ∀ (l : List Record) (i j : Nat) (r0 : Record),
      l[j]? = some r0 → r0.skip = true →
      (importLoop imp k i l).1[j]? = some r0 := by
  intro l
  induction l with
  | nil => intro i j r0 hj; simp at hj
  | cons r rest ih =>
    intro i j r0 hj hsk
    cases j with
    | zero =>
      rw [List.getElem?_cons_zero] at hj
      obtain rfl : r = r0 := by injection hj
      rw [importLoop_cons_skip hsk]
      simp
    | succ j =>
      rw [List.getElem?_cons_succ] at hj
      cases hs : r.skip with
      | true =>
        rw [importLoop_cons_skip hs]
        simpa using ih (i + 1) j r0 hj hsk
      | false =>
        cases ho : imp r with
        | none =>
          rw [importLoop_cons_ok hs ho]
          simpa using ih (i + 1) j r0 hj hsk
        | some cause =>
          cases k with
          | true =>
            rw [importLoop_cons_fail_continue hs ho]
            simpa using ih (i + 1) j r0 hj hsk
          | false =>
            rw [importLoop_cons_fail_abort hs ho]
            simpa using hj

/-- Every import call the loop makes is on the non-skipped record at the
corresponding position of the list: calls carry its index and its
resource ID. -/
theorem importLoop_importCall_mem (imp : Record → Option String) (k : Bool) :
    ∀ (l : List Record) (i n : Nat) (rid : String),
      Event.importCall n rid ∈ (importLoop imp k i l).2.1 →
      ∃ (j : Nat) (r0 : Record),
        l[j]? = some r0 ∧ n = i + j ∧ rid = r0.resourceID ∧ r0.skip = false := by
  intro l
  induction l with
  | nil => intro i n rid h; simp [importLoop_nil] at h
  | cons r rest ih =>
    intro i n rid hmem
    cases hs : r.skip with
    | true =>
      rw [importLoop_cons_skip hs] at hmem
      rcases List.mem_cons.mp hmem with h | h
      · exact Event.noConfusion h
      · obtain ⟨j, r0, hj, hn, hid, hsk⟩ := ih (i + 1) n rid h
        exact ⟨j + 1, r0, by simpa using hj, by omega, hid, hsk⟩
    | false =>
      cases ho : imp r with
      | none =>
        rw [importLoop_cons_ok hs ho] at hmem
        rcases List.mem_cons.mp hmem with h | h
        · exact Event.noConfusion h
        rcases List.mem_cons.mp h with h' | h'
        · obtain ⟨h1, h2⟩ := Event.importCall.inj h'
          exact ⟨0, r, by simp, by omega, h2, hs⟩
        · obtain ⟨j, r0, hj, hn, hid, hsk⟩ := ih (i + 1) n rid h'
          exact ⟨j + 1, r0, by simpa using hj, by omega, hid, hsk⟩
      | some cause =>
        cases k with
        | true =>
          rw [importLoop_cons_fail_continue hs ho] at hmem
          rcases List.mem_cons.mp hmem with h | h
          · exact Event.noConfusion h
          rcases List.mem_cons.mp h with h' | h'
          · obtain ⟨h1, h2⟩ := Event.importCall.inj h'
            exact ⟨0, r, by simp, by omega, h2, hs⟩
          rcases List.mem_cons.mp h' with h2 | h2
          · exact Event.noConfusion h2
          · obtain ⟨j, r0, hj, hn, hid, hsk⟩ := ih (i + 1) n rid h2
            exact ⟨j + 1, r0, by simpa using hj, by omega, hid, hsk⟩
        | false =>
          rw [importLoop_cons_fail_abort hs ho] at hmem
          rcases List.mem_cons.mp hmem with h | h
          · exact Event.noConfusion h
          rcases List.mem_cons.mp h with h' | h'
          · obtain ⟨h1, h2⟩ := Event.importCall.inj h'
            exact ⟨0, r, by simp, by omega, h2, hs⟩
          · exact absurd h' (List.not_mem_nil _)

/-- A skipped record is logged with its warning whenever the loop reaches
its position: always under `continueOnError = true`, and otherwise
whenever no earlier record both has a mapping and fails its import. -/
theorem importLoop_warnSkip_mem (imp : Record → Option String) (k : Bool) :
    ∀ (l : List Record) (i j : Nat) (r0 : Record),
      l[j]? = some r0 → r0.skip = true →
      (k = true ∨ ∀ p ∈ l.take j, p.skip = true ∨ imp p = none) →
      Event.warnSkip (i + j) r0.resourceID ∈ (importLoop imp k i l).2.1 := by
  intro l
  induction l with
  | nil => intro i j r0 hj; simp at hj
  | cons r rest ih =>
    intro i j r0 hj hsk hreach
    cases j with
    | zero =>
      rw [List.getElem?_cons_zero] at hj
      obtain rfl : r = r0 := by injection hj
      rw [importLoop_cons_skip hsk]
      exact List.mem_cons_self _ _
    | succ j =>
      rw [List.getElem?_cons_succ] at hj
      have hreach' : k = true ∨ ∀ p ∈ rest.take j, p.skip = true ∨ imp p = none := by
        rcases hreach with h | h
        · exact Or.inl h
        · refine Or.inr fun p hp => h p ?_
          rw [List.take_succ_cons]
          exact List.mem_cons_of_mem _ hp
      have hidx : i + (j + 1) = (i + 1) + j := by omega
      cases hs : r.skip with
      | true =>
        rw [importLoop_cons_skip hs]
        rw [hidx]
        exact List.mem_cons_of_mem _ (ih (i + 1) j r0 hj hsk hreach')
      | false =>
        cases ho : imp r with
        | none =>
          rw [importLoop_cons_ok hs ho]
          rw [hidx]
          exact List.mem_cons_of_mem _
            (List.mem_cons_of_mem _ (ih (i + 1) j r0 hj hsk hreach'))
        | some cause =>
          cases k with
          | true =>
            rw [importLoop_cons_fail_continue hs ho]
            rw [hidx]
            exact List.mem_cons_of_mem _ (List.mem_cons_of_mem _
              (List.mem_cons_of_mem _ (ih (i + 1) j r0 hj hsk hreach')))
          | false =>
            rcases hreach with h | h
            · exact absurd h (by simp)
            · have hr := h r (by rw [List.take_succ_cons]; exact List.mem_cons_self _ _)
              rcases hr with hr | hr
              · rw [hs] at hr; exact absurd hr (by simp)
              · rw [ho] at hr; exact absurd hr (by simp)

/-- Structure of an aborting run of the loop under
`continueOnError = false`: when every record before `r` is skipped or
imports cleanly, `r` has a mapping and its import fails with `cause`, the
loop stops at `r`, leaves the suffix after `r` untouched, and returns the
abort error naming `r`'s ID, target address and cause; all import calls
before the final one are on earlier records. -/
theorem importLoop_first_fail (imp : Record → Option String) (r : Record)
    (cause : String) (hr : r.skip = false) (hc : imp r = some cause) :
    ∀ (pre : List Record) (i : Nat) (post : List Record),
      (∀ p ∈ pre, p.skip = true ∨ imp p = none) →
      ∃ (pre' : List Record) (evs : List Event),
        importLoop imp false i (pre ++ r :: post) =
          (pre' ++ { r with importError := some cause } :: post,
           evs ++ [Event.importing (i + pre.length) r.resourceID r.tfAddr,
                   Event.importCall (i + pre.length) r.resourceID],
           some (RunError.importAbort r.resourceID r.tfAddr cause)) ∧
        pre'.length = pre.length ∧
        (∀ (n : Nat) (rid : String),
          Event.importCall n rid ∈ evs → n < i + pre.length) := by
  intro pre
  induction pre with
  | nil =>
    intro i post _
    refine ⟨[], [], ?_, rfl, by simp⟩
    rw [List.nil_append, importLoop_cons_fail_abort hr hc]
    simp
  | cons p ps ih =>
    intro i post hpre
    have hp := hpre p (List.mem_cons_self _ _)
    have hps : ∀ q ∈ ps, q.skip = true ∨ imp q = none :=
      fun q hq => hpre q (List.mem_cons_of_mem _ hq)
    obtain ⟨pre', evs, hEq, hlen, hbound⟩ := ih (i + 1) post hps
    have hidx : (i + 1) + ps.length = i + (p :: ps).length := by
      simp [List.length_cons]; omega
    rcases hp with hp | hp
    · refine ⟨p :: pre', Event.warnSkip i p.resourceID :: evs, ?_, ?_, ?_⟩
      · rw [List.cons_append, importLoop_cons_skip hp, hEq]
        simp [hidx]
      · simpa using hlen
      · intro n rid hmem
        rcases List.mem_cons.mp hmem with h | h
        · exact Event.noConfusion h
        · have := hbound n rid h
          simp [List.length_cons]
          omega
    · cases hps2 : p.skip with
      | true =>
        refine ⟨p :: pre', Event.warnSkip i p.resourceID :: evs, ?_, ?_, ?_⟩
        · rw [List.cons_append, importLoop_cons_skip hps2, hEq]
          simp [hidx]
        · simpa using hlen
        · intro n rid hmem
          rcases List.mem_cons.mp hmem with h | h
          · exact Event.noConfusion h
          · have := hbound n rid h
            simp [List.length_cons]
            omega
      | false =>
        refine ⟨{ p with importError := none } :: pre',
                Event.importing i p.resourceID p.tfAddr ::
                  Event.importCall i p.resourceID :: evs, ?_, ?_, ?_⟩
        · rw [List.cons_append, importLoop_cons_ok hps2 hp, hEq]
          simp [hidx]
        · simpa using hlen
        · intro n rid hmem
          rcases List.mem_cons.mp hmem with h | h
          · exact Event.noConfusion h
          rcases List.mem_cons.mp h with h' | h'
          · injection h' with h1 h2
            simp [List.length_cons]
            omega
          · have := hbound n rid h'
            simp [List.length_cons]
            omega

/-! ## Unfolding lemmas for `batchImport` once the loop is reached -/

theorem batchImport_run_abort {cfg : Config} {w : World} {k : Bool} {e : RunError}
    (h1 : logOpenResult cfg w = none) (h2 : w.newMetaErr = none)
    (h3 : w.initErr = none)
    (habort : (importLoop w.importOutcome k 0 w.resources).2.2 = some e) :
    batchImport cfg w k =
      ⟨Event.newMetaCall :: Event.initCall :: Event.listCall ::
         (importLoop w.importOutcome k 0 w.resources).2.1,
       (importLoop w.importOutcome k 0 w.resources).1, some e⟩ := by
  simp only [batchImport, h1, h2, h3, habort]

theorem batchImport_run_noAbort {cfg : Config} {w : World} {k : Bool}
    (h1 : logOpenResult cfg w = none) (h2 : w.newMetaErr = none)
    (h3 : w.initErr = none)
    (hok : (importLoop w.importOutcome k 0 w.resources).2.2 = none) :
    batchImport cfg w k =
      ⟨(Event.newMetaCall :: Event.initCall :: Event.listCall ::
          (importLoop w.importOutcome k 0 w.resources).2.1) ++
         [Event.generateCall (importLoop w.importOutcome k 0 w.resources).1],
       (importLoop w.importOutcome k 0 w.resources).1,
       Option.map RunError.generateError
         (w.generateErr (importLoop w.importOutcome k 0 w.resources).1)⟩ := by
  simp only [batchImport, h1, h2, h3, hok]
  cases hg : w.generateErr (importLoop w.importOutcome k 0 w.resources).1 <;>
    simp [hg]

theorem importLoop_countP_generate (imp : Record → Option String) (k : Bool)
    (l : List Record) (i : Nat) :
    (importLoop imp k i l).2.1.countP Event.isGenerate = 0 := by
  rw [List.countP_eq_zero]
  intro e he hgen
  have hclass := importLoop_events_loop imp k l i e he
  cases e with
  | generateCall recs => simp [Event.isLoopEvent] at hclass
  | newMetaCall => simp [Event.isGenerate] at hgen
  | initCall => simp [Event.isGenerate] at hgen
  | listCall => simp [Event.isGenerate] at hgen
  | warnSkip a b => simp [Event.isGenerate] at hgen
  | importing a b c => simp [Event.isGenerate] at hgen
  | importCall a b => simp [Event.isGenerate] at hgen
  | errorLog a b c d => simp [Event.isGenerate] at hgen

/-- With `continueOnError = true`, every record with a mapping is
import-called at its index, and when its import fails the failure is
logged with its ID, address and cause. -/
theorem importLoop_continue_attempts (imp : Record → Option String) :
    ∀ (l : List Record) (i j : Nat) (r0 : Record),
      l[j]? = some r0 → r0.skip = false →
      Event.importCall (i + j) r0.resourceID ∈ (importLoop imp true i l).2.1 ∧
      (∀ cause, imp r0 = some cause →
        Event.errorLog (i + j) r0.resourceID r0.tfAddr cause ∈
          (importLoop imp true i l).2.1) := by
  intro l
  induction l with
  | nil => intro i j r0 hj; simp at hj
  | cons r rest ih =>
    intro i j r0 hj hsk
    cases j with
    | zero =>
      rw [List.getElem?_cons_zero] at hj
      obtain rfl : r = r0 := by injection hj
      cases ho : imp r with
      | none =>
        rw [importLoop_cons_ok hsk ho]
        refine ⟨List.mem_cons_of_mem _ (List.mem_cons_self _ _), ?_⟩
        intro cause hcause
        exact absurd hcause (by simp)
      | some cause =>
        rw [importLoop_cons_fail_continue hsk ho]
        refine ⟨List.mem_cons_of_mem _ (List.mem_cons_self _ _), ?_⟩
        intro c hc
        obtain rfl : cause = c := Option.some.inj hc
        exact List.mem_cons_of_mem _
          (List.mem_cons_of_mem _ (List.mem_cons_self _ _))
    | succ j =>
      rw [List.getElem?_cons_succ] at hj
      have hidx : i + (j + 1) = (i + 1) + j := by omega
      obtain ⟨h1, h2⟩ := ih (i + 1) j r0 hj hsk
      cases hs : r.skip with
      | true =>
        rw [importLoop_cons_skip hs, hidx]
        exact ⟨List.mem_cons_of_mem _ h1,
               fun c hc => List.mem_cons_of_mem _ (h2 c hc)⟩
      | false =>
        cases ho : imp r with
        | none =>
          rw [importLoop_cons_ok hs ho, hidx]
          exact ⟨List.mem_cons_of_mem _ (List.mem_cons_of_mem _ h1),
                 fun c hc => List.mem_cons_of_mem _
                   (List.mem_cons_of_mem _ (h2 c hc))⟩
        | some cause =>
          rw [importLoop_cons_fail_continue hs ho, hidx]
          exact ⟨List.mem_cons_of_mem _ (List.mem_cons_of_mem _
                   (List.mem_cons_of_mem _ h1)),
                 fun c hc => List.mem_cons_of_mem _ (List.mem_cons_of_mem _
                   (List.mem_cons_of_mem _ (h2 c hc)))⟩

/-- Once the loop is reached, the run's events are the three phase events,
the loop's events, and possibly a final generation event; the final record
list is the loop's output. -/
theorem batchImport_events_split {cfg : Config} {w : World} {k : Bool}
    (h1 : logOpenResult cfg w = none) (h2 : w.newMetaErr = none)
    (h3 : w.initErr = none) :
    ∃ tailEvs,
      (batchImport cfg w k).events =
        Event.newMetaCall :: Event.initCall :: Event.listCall ::
          ((importLoop w.importOutcome k 0 w.resources).2.1 ++ tailEvs) ∧
      (∀ e ∈ tailEvs, Event.isGenerate e = true) ∧
      (batchImport cfg w k).finalList =
        (importLoop w.importOutcome k 0 w.resources).1 := by
  cases habort : (importLoop w.importOutcome k 0 w.resources).2.2 with
  | some e =>
    refine ⟨[], ?_, by simp, ?_⟩
    · rw [batchImport_run_abort h1 h2 h3 habort]; simp
    · rw [batchImport_run_abort h1 h2 h3 habort]
  | none =>
    refine ⟨[Event.generateCall (importLoop w.importOutcome k 0 w.resources).1],
            ?_, ?_, ?_⟩
    · rw [batchImport_run_noAbort h1 h2 h3 habort]; simp
    · intro e he
      rcases List.mem_cons.mp he with rfl | he'
      · rfl
      · exact absurd he' (List.not_mem_nil _)
    · rw [batchImport_run_noAbort h1 h2 h3 habort]

/-- Shared helper: under `continueOnError = false`, the first failing
record determines the run's returned error. -/
theorem batchImport_abort_result {cfg : Config} {w : World}
    {pre post : List Record} {r : Record} {cause : String}
    (hlog : logOpenResult cfg w = none) (hmeta : w.newMetaErr = none)
    (hinit : w.initErr = none)
    (hres : w.resources = pre ++ r :: post)
    (hpre : ∀ p ∈ pre, p.skip = true ∨ w.importOutcome p = none)
    (hr : r.skip = false) (hc : w.importOutcome r = some cause) :
    (batchImport cfg w false).result =
      some (RunError.importAbort r.resourceID r.tfAddr cause) := by
  obtain ⟨pre', evs, hEq, hlen, hbound⟩ :=
    importLoop_first_fail w.importOutcome r cause hr hc pre 0 post hpre
  have habort : (importLoop w.importOutcome false 0 w.resources).2.2 =
      some (RunError.importAbort r.resourceID r.tfAddr cause) := by
    rw [hres, hEq]
  rw [batchImport_run_abort hlog hmeta hinit habort]

/-! ## Claim C1: first failing import aborts the run -/

/-- C1: with `continueOnError = false`, when every record before `r` in
discovery order is skipped or imports cleanly, `r` has a mapping and
importing it fails with `cause`, the run aborts at `r`: the returned error
names `r`'s resource ID, target address and underlying cause;
configuration generation is never invoked; every import call is at `r`'s
index or earlier (no later record is imported); and the records after `r`
are left exactly as discovery produced them. -/
theorem c1_first_failure_aborts
    (cfg : Config) (w : World) (pre post : List Record) (r : Record)
    (cause : String)
    (hlog : logOpenResult cfg w = none) (hmeta : w.newMetaErr = none)
    (hinit : w.initErr = none)
    (hres : w.resources = pre ++ r :: post)
    (hpre : ∀ p ∈ pre, p.skip = true ∨ w.importOutcome p = none)
    (hr : r.skip = false) (hc : w.importOutcome r = some cause) :
    (batchImport cfg w false).result =
        some (RunError.importAbort r.resourceID r.tfAddr cause) ∧
    (∀ recs, Event.generateCall recs ∉ (batchImport cfg w false).events) ∧
    (∀ (n : Nat) (rid : String),
      Event.importCall n rid ∈ (batchImport cfg w false).events →
        n ≤ pre.length) ∧
    (batchImport cfg w false).finalList.drop (pre.length + 1) = post := by
  obtain ⟨pre', evs, hEq, hlen, hbound⟩ :=
    importLoop_first_fail w.importOutcome r cause hr hc pre 0 post hpre
  have habort : (importLoop w.importOutcome false 0 w.resources).2.2 =
      some (RunError.importAbort r.resourceID r.tfAddr cause) := by
    rw [hres, hEq]
  have hrun := batchImport_run_abort hlog hmeta hinit habort
  refine ⟨batchImport_abort_result hlog hmeta hinit hres hpre hr hc, ?_, ?_, ?_⟩
  · intro recs hmem
    rw [hrun] at hmem
    rcases List.mem_cons.mp hmem with h | h
    · exact Event.noConfusion h
    rcases List.mem_cons.mp h with h' | h'
    · exact Event.noConfusion h'
    rcases List.mem_cons.mp h' with h2 | h2
    · exact Event.noConfusion h2
    · exact importLoop_no_generate w.importOutcome false w.resources 0 recs h2
  · intro n rid hmem
    rw [hrun] at hmem
    rcases List.mem_cons.mp hmem with h | h
    · exact Event.noConfusion h
    rcases List.mem_cons.mp h with h' | h'
    · exact Event.noConfusion h'
    rcases List.mem_cons.mp h' with h2 | h2
    · exact Event.noConfusion h2
    rw [hres, hEq] at h2
    rcases List.mem_append.mp h2 with h3 | h3
    · exact Nat.le_of_lt (by simpa using hbound n rid h3)
    rcases List.mem_cons.mp h3 with h4 | h4
    · exact Event.noConfusion h4
    rcases List.mem_cons.mp h4 with h5 | h5
    · obtain ⟨h6, h7⟩ := Event.importCall.inj h5
      omega
    · exact absurd h5 (List.not_mem_nil _)
  · have hfl : (batchImport cfg w false).finalList =
        pre' ++ { r with importError := some cause } :: post := by
      rw [hrun, hres, hEq]
    rw [hfl, ← hlen]
    simp [List.drop_append]

theorem c1_first_failure_aborts_witness :
    (logOpenResult cfgPlain worldABC = none ∧
     worldABC.newMetaErr = none ∧ worldABC.initErr = none ∧
     worldABC.resources = [recA] ++ recB :: [recC] ∧
     (∀ p ∈ [recA], p.skip = true ∨ worldABC.importOutcome p = none) ∧
     recB.skip = false ∧ worldABC.importOutcome recB = some "boom") ∧
    ((batchImport cfgPlain worldABC false).result =
        some (RunError.importAbort recB.resourceID recB.tfAddr "boom") ∧
     (∀ recs,
        Event.generateCall recs ∉ (batchImport cfgPlain worldABC false).events) ∧
     (∀ (n : Nat) (rid : String),
        Event.importCall n rid ∈ (batchImport cfgPlain worldABC false).events →
          n ≤ [recA].length) ∧
     (batchImport cfgPlain worldABC false).finalList.drop
        ([recA].length + 1) = [recC]) :=
  ⟨⟨rfl, rfl, rfl, rfl, by decide, by decide, by decide⟩,
   c1_first_failure_aborts cfgPlain worldABC [recA] [recC] recB "boom"
     rfl rfl rfl rfl (by decide) (by decide) (by decide)⟩

/-! ## Claim C8: the abort error is deterministic -/

/-- C8: two runs under `continueOnError = false` over the same discovered
record sequence, in which the same record is the first to fail and fails
with the same cause, return structurally equal abort errors — same
resource ID, same target address, same underlying cause — regardless of
the configurations and of the worlds' other behaviour. -/
theorem c8_abort_error_deterministic
    (cfg1 cfg2 : Config) (w1 w2 : World) (pre post : List Record)
    (r : Record) (cause : String)
    (hlog1 : logOpenResult cfg1 w1 = none) (hmeta1 : w1.newMetaErr = none)
    (hinit1 : w1.initErr = none)
    (hlog2 : logOpenResult cfg2 w2 = none) (hmeta2 : w2.newMetaErr = none)
    (hinit2 : w2.initErr = none)
    (hres1 : w1.resources = pre ++ r :: post)
    (hres2 : w2.resources = pre ++ r :: post)
    (hpre1 : ∀ p ∈ pre, p.skip = true ∨ w1.importOutcome p = none)
    (hpre2 : ∀ p ∈ pre, p.skip = true ∨ w2.importOutcome p = none)
    (hr : r.skip = false)
    (hc1 : w1.importOutcome r = some cause)
    (hc2 : w2.importOutcome r = some cause) :
    (batchImport cfg1 w1 false).result = (batchImport cfg2 w2 false).result ∧
    (batchImport cfg1 w1 false).result =
      some (RunError.importAbort r.resourceID r.tfAddr cause) := by
  have h1 := batchImport_abort_result hlog1 hmeta1 hinit1 hres1 hpre1 hr hc1
  have h2 := batchImport_abort_result hlog2 hmeta2 hinit2 hres2 hpre2 hr hc2
  exact ⟨h1.trans h2.symm, h1⟩

theorem c8_abort_error_deterministic_witness :
    (logOpenResult cfgPlain worldABC = none ∧
     worldABC.newMetaErr = none ∧ worldABC.initErr = none) ∧
    (logOpenResult cfgPlain worldABC2 = none ∧
     worldABC2.newMetaErr = none ∧ worldABC2.initErr = none ∧
     worldABC.resources = [recA] ++ recB :: [recC] ∧
     worldABC2.resources = [recA] ++ recB :: [recC] ∧
     (∀ p ∈ [recA], p.skip = true ∨ worldABC.importOutcome p = none) ∧
     (∀ p ∈ [recA], p.skip = true ∨ worldABC2.importOutcome p = none) ∧
     recB.skip = false ∧
     worldABC.importOutcome recB = some "boom" ∧
     worldABC2.importOutcome recB = some "boom") ∧
    ((batchImport cfgPlain worldABC false).result =
        (batchImport cfgPlain worldABC2 false).result ∧
     (batchImport cfgPlain worldABC false).result =
        some (RunError.importAbort recB.resourceID recB.tfAddr "boom")) :=
  ⟨⟨rfl, rfl, rfl⟩,
   ⟨rfl, rfl, rfl, rfl, rfl, by decide, by decide, by decide, by decide,
    by decide⟩,
   c8_abort_error_deterministic cfgPlain cfgPlain worldABC worldABC2
     [recA] [recC] recB "boom" rfl rfl rfl rfl rfl rfl rfl rfl
     (by decide) (by decide) (by decide) (by decide) (by decide)⟩

/-! ## Claim C2: continue-on-error attempts everything, generates once -/

/-- C2: with `continueOnError = true`, every record with a mapping is
import-called at its index in discovery order, every failing import is
logged (with its ID, address and cause), and configuration generation is
invoked exactly once, on the full record sequence: same length and same
records in discovery order, `importError` aside — skipped and failed
records included, not a filtered subset. -/
theorem c2_continue_attempts_all (cfg : Config) (w : World)
    (hlog : logOpenResult cfg w = none) (hmeta : w.newMetaErr = none)
    (hinit : w.initErr = none) :
    (∀ (j : Nat) (r0 : Record), w.resources[j]? = some r0 →
      r0.skip = false →
      Event.importCall j r0.resourceID ∈ (batchImport cfg w true).events ∧
      ∀ cause, w.importOutcome r0 = some cause →
        Event.errorLog j r0.resourceID r0.tfAddr cause ∈
          (batchImport cfg w true).events) ∧
    Event.generateCall (importLoop w.importOutcome true 0 w.resources).1 ∈
      (batchImport cfg w true).events ∧
    (batchImport cfg w true).events.countP Event.isGenerate = 1 ∧
    ((importLoop w.importOutcome true 0 w.resources).1).map Record.base =
      w.resources.map Record.base := by
  have hok := importLoop_continue_no_abort w.importOutcome w.resources 0
  have hrun := batchImport_run_noAbort hlog hmeta hinit hok
  refine ⟨?_, ?_, ?_, importLoop_map_base w.importOutcome true w.resources 0⟩
  · intro j r0 hj hsk
    obtain ⟨h1, h2⟩ :=
      importLoop_continue_attempts w.importOutcome w.resources 0 j r0 hj hsk
    rw [hrun]
    constructor
    · refine List.mem_append_left _ ?_
      have h1' : Event.importCall j r0.resourceID ∈
          (importLoop w.importOutcome true 0 w.resources).2.1 := by
        simpa using h1
      exact List.mem_cons_of_mem _
        (List.mem_cons_of_mem _ (List.mem_cons_of_mem _ h1'))
    · intro cause hc
      refine List.mem_append_left _ ?_
      have h2' : Event.errorLog j r0.resourceID r0.tfAddr cause ∈
          (importLoop w.importOutcome true 0 w.resources).2.1 := by
        simpa using h2 cause hc
      exact List.mem_cons_of_mem _
        (List.mem_cons_of_mem _ (List.mem_cons_of_mem _ h2'))
  · rw [hrun]
    simp
  · rw [hrun]
    have h0 := importLoop_countP_generate w.importOutcome true w.resources 0
    simp [List.countP_cons, List.countP_append, Event.isGenerate, h0]

theorem c2_continue_attempts_all_witness :
    (logOpenResult cfgPlain worldABC = none ∧
     worldABC.newMetaErr = none ∧ worldABC.initErr = none) ∧
    ((∀ (j : Nat) (r0 : Record), worldABC.resources[j]? = some r0 →
      r0.skip = false →
      Event.importCall j r0.resourceID ∈
        (batchImport cfgPlain worldABC true).events ∧
      ∀ cause, worldABC.importOutcome r0 = some cause →
        Event.errorLog j r0.resourceID r0.tfAddr cause ∈
          (batchImport cfgPlain worldABC true).events) ∧
    Event.generateCall
        (importLoop worldABC.importOutcome true 0 worldABC.resources).1 ∈
      (batchImport cfgPlain worldABC true).events ∧
    (batchImport cfgPlain worldABC true).events.countP Event.isGenerate = 1 ∧
    ((importLoop worldABC.importOutcome true 0 worldABC.resources).1).map
        Record.base = worldABC.resources.map Record.base) :=
  ⟨⟨rfl, rfl, rfl⟩, c2_continue_attempts_all cfgPlain worldABC rfl rfl rfl⟩

/-! ## Claim C3: unmapped records are never imported -/

/-- C3 counterexample: in the run over `[B, U]` with
`continueOnError = false`, the unmapped record `U` at index 1 is indeed
never imported, but no skip warning naming it is ever logged, because the
run aborts at `B` before reaching `U` — refuting the claim's
unconditional "the record is skipped with a warning log". -/
theorem c3_counterexample :
    worldBU.resources[1]? = some recU ∧ recU.skip = true ∧
    hasWarnSkipAt 1 (batchImport cfgPlain worldBU false).events = false := by
  decide

/-- C3 (amended): a record whose mapping is absent (`Skip()` true) is
never import-called and its `importError` is never written — it reaches
the final record list unchanged; and the warning log naming its resource
ID is emitted whenever the import phase reaches it: always when
`continueOnError` is true, and otherwise whenever no earlier record has
both a mapping and a failing import. -/
theorem c3_unmapped_never_imported
    (cfg : Config) (w : World) (k : Bool) (j : Nat) (r0 : Record)
    (hlog : logOpenResult cfg w = none) (hmeta : w.newMetaErr = none)
    (hinit : w.initErr = none)
    (hj : w.resources[j]? = some r0) (hsk : r0.skip = true) :
    (∀ rid, Event.importCall j rid ∉ (batchImport cfg w k).events) ∧
    (batchImport cfg w k).finalList[j]? = some r0 ∧
    ((k = true ∨
        ∀ p ∈ w.resources.take j, p.skip = true ∨ w.importOutcome p = none) →
      Event.warnSkip j r0.resourceID ∈ (batchImport cfg w k).events) := by
  obtain ⟨tailEvs, hevs, htail, hfl⟩ := batchImport_events_split hlog hmeta hinit
  refine ⟨?_, ?_, ?_⟩
  · intro rid hmem
    rw [hevs] at hmem
    rcases List.mem_cons.mp hmem with h | h
    · exact Event.noConfusion h
    rcases List.mem_cons.mp h with h' | h'
    · exact Event.noConfusion h'
    rcases List.mem_cons.mp h' with h2 | h2
    · exact Event.noConfusion h2
    rcases List.mem_append.mp h2 with h3 | h3
    · obtain ⟨j', r0', hj', hn, hid, hsk'⟩ :=
        importLoop_importCall_mem w.importOutcome k w.resources 0 j rid h3
      have hjj : j' = j := by omega
      subst hjj
      rw [hj] at hj'
      obtain rfl : r0 = r0' := by injection hj'
      rw [hsk] at hsk'
      exact Bool.noConfusion hsk'
    · have hg := htail _ h3
      simp [Event.isGenerate] at hg
  · rw [hfl]
    exact importLoop_skip_unchanged w.importOutcome k w.resources 0 j r0 hj hsk
  · intro hreach
    have hw :=
      importLoop_warnSkip_mem w.importOutcome k w.resources 0 j r0 hj hsk hreach
    rw [hevs]
    have hw' : Event.warnSkip j r0.resourceID ∈
        (importLoop w.importOutcome k 0 w.resources).2.1 := by
      simpa using hw
    exact List.mem_cons_of_mem _ (List.mem_cons_of_mem _
      (List.mem_cons_of_mem _ (List.mem_append_left _ hw')))

theorem c3_unmapped_never_imported_witness :
    (logOpenResult cfgPlain worldBU = none ∧
     worldBU.newMetaErr = none ∧ worldBU.initErr = none ∧
     worldBU.resources[1]? = some recU ∧ recU.skip = true) ∧
    ((∀ rid,
        Event.importCall 1 rid ∉ (batchImport cfgPlain worldBU false).events) ∧
     (batchImport cfgPlain worldBU false).finalList[1]? = some recU ∧
     ((false = true ∨
        ∀ p ∈ worldBU.resources.take 1,
          p.skip = true ∨ worldBU.importOutcome p = none) →
      Event.warnSkip 1 recU.resourceID ∈
        (batchImport cfgPlain worldBU false).events)) :=
  ⟨⟨rfl, rfl, rfl, by decide, by decide⟩,
   c3_unmapped_never_imported cfgPlain worldBU false 1 recU rfl rfl rfl
     (by decide) (by decide)⟩

/-! ## Claim C4: the record sequence is never added to, filtered or
reordered -/

/-- C4: between discovery and generation the orchestrator neither adds,
removes nor reorders records: the final record list has the same length
and the same records in the same order as discovery returned (only
`importError` may differ), and any generation call receives exactly that
list. -/
theorem c4_frame_preserved (cfg : Config) (w : World) (k : Bool)
    (hlog : logOpenResult cfg w = none) (hmeta : w.newMetaErr = none)
    (hinit : w.initErr = none) :
    (batchImport cfg w k).finalList.map Record.base =
      w.resources.map Record.base ∧
    (batchImport cfg w k).finalList.length = w.resources.length ∧
    (∀ recs, Event.generateCall recs ∈ (batchImport cfg w k).events →
      recs = (batchImport cfg w k).finalList) := by
  obtain ⟨tailEvs, hevs, htail, hfl⟩ := batchImport_events_split hlog hmeta hinit
  refine ⟨?_, ?_, ?_⟩
  · rw [hfl]
    exact importLoop_map_base w.importOutcome k w.resources 0
  · rw [hfl]
    exact importLoop_length w.importOutcome k w.resources 0
  · intro recs hmem
    cases habort : (importLoop w.importOutcome k 0 w.resources).2.2 with
    | some e =>
      rw [batchImport_run_abort hlog hmeta hinit habort] at hmem
      rcases List.mem_cons.mp hmem with h | h
      · exact Event.noConfusion h
      rcases List.mem_cons.mp h with h' | h'
      · exact Event.noConfusion h'
      rcases List.mem_cons.mp h' with h2 | h2
      · exact Event.noConfusion h2
      · exact absurd h2
          (importLoop_no_generate w.importOutcome k w.resources 0 recs)
    | none =>
      rw [batchImport_run_noAbort hlog hmeta hinit habort] at hmem
      rw [hfl]
      rcases List.mem_append.mp hmem with h | h
      · rcases List.mem_cons.mp h with h' | h'
        · exact Event.noConfusion h'
        rcases List.mem_cons.mp h' with h2 | h2
        · exact Event.noConfusion h2
        rcases List.mem_cons.mp h2 with h3 | h3
        · exact Event.noConfusion h3
        · exact absurd h3
            (importLoop_no_generate w.importOutcome k w.resources 0 recs)
      · rcases List.mem_cons.mp h with h' | h'
        · obtain h2 := Event.generateCall.inj h'
          exact h2
        · exact absurd h' (List.not_mem_nil _)

theorem c4_frame_preserved_witness :
    (logOpenResult cfgPlain worldABC = none ∧
     worldABC.newMetaErr = none ∧ worldABC.initErr = none) ∧
    ((batchImport cfgPlain worldABC false).finalList.map Record.base =
       worldABC.resources.map Record.base ∧
     (batchImport cfgPlain worldABC false).finalList.length =
       worldABC.resources.length ∧
     (∀ recs,
        Event.generateCall recs ∈ (batchImport cfgPlain worldABC false).events →
        recs = (batchImport cfgPlain worldABC false).finalList)) :=
  ⟨⟨rfl, rfl, rfl⟩, c4_frame_preserved cfgPlain worldABC false rfl rfl rfl⟩

/-! ## Claim C5: fixed phase order -/

theorem importLoop_countP_list (imp : Record → Option String) (k : Bool)
    (l : List Record) (i : Nat) :
    (importLoop imp k i l).2.1.countP Event.isList = 0 := by
  rw [List.countP_eq_zero]
  intro e he hl
  have hclass := importLoop_events_loop imp k l i e he
  cases e with
  | listCall => simp [Event.isLoopEvent] at hclass
  | newMetaCall => simp [Event.isList] at hl
  | initCall => simp [Event.isList] at hl
  | warnSkip a b => simp [Event.isList] at hl
  | importing a b c => simp [Event.isList] at hl
  | importCall a b => simp [Event.isList] at hl
  | errorLog a b c d => simp [Event.isList] at hl
  | generateCall recs => simp [Event.isList] at hl

/-- C5: the phases occur in a fixed order.  Engine construction failure
returns that error with only the construction attempted (no discovery);
initialization failure likewise; otherwise the run's events start with
construction, initialization and exactly one discovery call, and
generation is invoked exactly when the import phase did not abort. -/
theorem c5_phase_order (cfg : Config) (w : World) (k : Bool)
    (hlog : logOpenResult cfg w = none) :
    (∀ cause, w.newMetaErr = some cause →
      batchImport cfg w k =
        ⟨[Event.newMetaCall], [], some (RunError.newMetaError cause)⟩) ∧
    (∀ cause, w.newMetaErr = none → w.initErr = some cause →
      batchImport cfg w k =
        ⟨[Event.newMetaCall, Event.initCall], [],
         some (RunError.initError cause)⟩) ∧
    (w.newMetaErr = none → w.initErr = none →
      (batchImport cfg w k).events.countP Event.isList = 1 ∧
      (∃ rest, (batchImport cfg w k).events =
        Event.newMetaCall :: Event.initCall :: Event.listCall :: rest) ∧
      ((∃ recs, Event.generateCall recs ∈ (batchImport cfg w k).events) ↔
        (importLoop w.importOutcome k 0 w.resources).2.2 = none)) := by
  refine ⟨?_, ?_, ?_⟩
  · intro cause he
    simp [batchImport, hlog, he]
  · intro cause hm hi
    simp [batchImport, hlog, hm, hi]
  · intro hm hi
    obtain ⟨tailEvs, hevs, htail, hfl⟩ := batchImport_events_split hlog hm hi
    have h1 := importLoop_countP_list w.importOutcome k w.resources 0
    have h2 : tailEvs.countP Event.isList = 0 := by
      rw [List.countP_eq_zero]
      intro e he hl
      have hg := htail e he
      cases e with
      | listCall => simp [Event.isGenerate] at hg
      | newMetaCall => simp [Event.isList] at hl
      | initCall => simp [Event.isList] at hl
      | warnSkip a b => simp [Event.isList] at hl
      | importing a b c => simp [Event.isList] at hl
      | importCall a b => simp [Event.isList] at hl
      | errorLog a b c d => simp [Event.isList] at hl
      | generateCall recs => simp [Event.isList] at hl
    refine ⟨?_, ⟨_, hevs⟩, ?_, ?_⟩
    · rw [hevs]
      simp [List.countP_cons, List.countP_append, Event.isList, h1, h2]
    · rintro ⟨recs, hmem⟩
      cases habort : (importLoop w.importOutcome k 0 w.resources).2.2 with
      | none => rfl
      | some e =>
        rw [batchImport_run_abort hlog hm hi habort] at hmem
        rcases List.mem_cons.mp hmem with h | h
        · exact Event.noConfusion h
        rcases List.mem_cons.mp h with h' | h'
        · exact Event.noConfusion h'
        rcases List.mem_cons.mp h' with h3 | h3
        · exact Event.noConfusion h3
        · exact absurd h3
            (importLoop_no_generate w.importOutcome k w.resources 0 recs)
    · intro hok
      rw [batchImport_run_noAbort hlog hm hi hok]
      exact ⟨(importLoop w.importOutcome k 0 w.resources).1, by simp⟩

theorem c5_phase_order_witness :
    logOpenResult cfgPlain worldABC = none ∧
    ((∀ cause, worldABC.newMetaErr = some cause →
      batchImport cfgPlain worldABC false =
        ⟨[Event.newMetaCall], [], some (RunError.newMetaError cause)⟩) ∧
    (∀ cause, worldABC.newMetaErr = none → worldABC.initErr = some cause →
      batchImport cfgPlain worldABC false =
        ⟨[Event.newMetaCall, Event.initCall], [],
         some (RunError.initError cause)⟩) ∧
    (worldABC.newMetaErr = none → worldABC.initErr = none →
      (batchImport cfgPlain worldABC false).events.countP Event.isList = 1 ∧
      (∃ rest, (batchImport cfgPlain worldABC false).events =
        Event.newMetaCall :: Event.initCall :: Event.listCall :: rest) ∧
      ((∃ recs, Event.generateCall recs ∈
          (batchImport cfgPlain worldABC false).events) ↔
        (importLoop worldABC.importOutcome false 0
          worldABC.resources).2.2 = none))) :=
  ⟨rfl, c5_phase_order cfgPlain worldABC false rfl⟩

/-! ## Claim C6: a generation failure is wrapped and fatal -/

/-- C6: when the run reaches generation (the import phase did not abort)
and `GenerateCfg` fails, the returned terminal error is the generation
error wrapping that cause, and its message adds the
configuration-generation phase context while preserving the cause. -/
theorem c6_generation_failure_fatal (cfg : Config) (w : World) (k : Bool)
    (cause : String)
    (hlog : logOpenResult cfg w = none) (hmeta : w.newMetaErr = none)
    (hinit : w.initErr = none)
    (hok : (importLoop w.importOutcome k 0 w.resources).2.2 = none)
    (hgen : w.generateErr (importLoop w.importOutcome k 0 w.resources).1 =
      some cause) :
    (batchImport cfg w k).result = some (RunError.generateError cause) ∧
    (RunError.generateError cause).render =
      "generating Terraform configuration: " ++ cause := by
  rw [batchImport_run_noAbort hlog hmeta hinit hok]
  exact ⟨by simp [hgen], rfl⟩

theorem c6_generation_failure_fatal_witness :
    (logOpenResult cfgPlain worldABC2 = none ∧
     worldABC2.newMetaErr = none ∧ worldABC2.initErr = none ∧
     (importLoop worldABC2.importOutcome true 0 worldABC2.resources).2.2 =
        none ∧
     worldABC2.generateErr
        (importLoop worldABC2.importOutcome true 0 worldABC2.resources).1 =
        some "genfail") ∧
    ((batchImport cfgPlain worldABC2 true).result =
        some (RunError.generateError "genfail") ∧
     (RunError.generateError "genfail").render =
        "generating Terraform configuration: " ++ "genfail") :=
  ⟨⟨rfl, rfl, rfl, by decide, by decide⟩,
   c6_generation_failure_fatal cfgPlain worldABC2 true "genfail"
     rfl rfl rfl (by decide) (by decide)⟩

/-! ## Claim C9: the version flag preempts everything -/

/-- C9: when the version flag is set, the process prints the version and
exits with code 0, before the arity check, before the quiet-mode and
continue-on-error checks, and before any engine work — whatever the other
flags and positional arguments are. -/
theorem c9_version_preempts (f : Flags) (hv : f.version = true) :
    mainRun f = MainOutcome.printVersionExit0 ∧
    (mainRun f).exitCode = some 0 ∧
    (mainRun f).reachesEngine = false := by
  have h : mainRun f = MainOutcome.printVersionExit0 := by
    simp [mainRun, hv]
  refine ⟨h, ?_, ?_⟩
  · rw [h]; rfl
  · rw [h]; rfl

theorem c9_version_preempts_witness :
    flagsVQ.version = true ∧
    (mainRun flagsVQ = MainOutcome.printVersionExit0 ∧
     (mainRun flagsVQ).exitCode = some 0 ∧
     (mainRun flagsVQ).reachesEngine = false) :=
  ⟨rfl, c9_version_preempts flagsVQ rfl⟩

/-! ## Claim C7: flag sanity checks -/

/-- C7 counterexample: an invocation with quiet mode set and no mapping
file is not rejected as an argument error when the version flag is also
present — the run prints the version and exits with code 0, not 1. -/
theorem c7_counterexample :
    flagsVQ.quietMode = true ∧ flagsVQ.mappingFile = "" ∧
    mainRun flagsVQ = MainOutcome.printVersionExit0 ∧
    (mainRun flagsVQ).exitCode = some 0 := by
  refine ⟨rfl, rfl, ?_, ?_⟩ <;> decide

/-- C7 (amended): provided the version flag is unset, quiet mode without
a mapping file never reaches engine work and exits with code 1, and
likewise continue-on-error without quiet mode; when exactly one
positional argument is supplied the rejection is the specific argument
error, whose message is what is printed on standard error. -/
theorem c7_flag_sanity (f : Flags) (hv : f.version = false) :
    (f.quietMode = true → f.mappingFile = "" →
      (mainRun f).reachesEngine = false ∧ (mainRun f).exitCode = some 1 ∧
      (f.args.length = 1 →
        mainRun f =
          MainOutcome.argErrorExit1 "`-q` must be used together with `-m`" ∧
        (mainRun f).stderrText = "`-q` must be used together with `-m`")) ∧
    (f.continueOnError = true → f.quietMode = false →
      (mainRun f).reachesEngine = false ∧ (mainRun f).exitCode = some 1 ∧
      (f.args.length = 1 →
        mainRun f =
          MainOutcome.argErrorExit1 "`-k` must be used together with `-q`" ∧
        (mainRun f).stderrText = "`-k` must be used together with `-q`")) := by
  constructor
  · intro hq hm
    by_cases ha : f.args.length = 1
    · have hrun : mainRun f =
          MainOutcome.argErrorExit1 "`-q` must be used together with `-m`" := by
        simp [mainRun, hv, ha, hq, hm]
      exact ⟨by rw [hrun]; rfl, by rw [hrun]; rfl,
             fun _ => ⟨hrun, by rw [hrun]; rfl⟩⟩
    · have hrun : mainRun f = MainOutcome.usageExit1 := by
        simp [mainRun, hv, ha]
      exact ⟨by rw [hrun]; rfl, by rw [hrun]; rfl,
             fun h1 => absurd h1 ha⟩
  · intro hk hq
    by_cases ha : f.args.length = 1
    · have hrun : mainRun f =
          MainOutcome.argErrorExit1 "`-k` must be used together with `-q`" := by
        simp [mainRun, hv, ha, hk, hq]
      exact ⟨by rw [hrun]; rfl, by rw [hrun]; rfl,
             fun _ => ⟨hrun, by rw [hrun]; rfl⟩⟩
    · have hrun : mainRun f = MainOutcome.usageExit1 := by
        simp [mainRun, hv, ha]
      exact ⟨by rw [hrun]; rfl, by rw [hrun]; rfl,
             fun h1 => absurd h1 ha⟩

theorem c7_flag_sanity_witness :
    flagsQ.version = false ∧
    ((flagsQ.quietMode = true → flagsQ.mappingFile = "" →
      (mainRun flagsQ).reachesEngine = false ∧
      (mainRun flagsQ).exitCode = some 1 ∧
      (flagsQ.args.length = 1 →
        mainRun flagsQ =
          MainOutcome.argErrorExit1 "`-q` must be used together with `-m`" ∧
        (mainRun flagsQ).stderrText = "`-q` must be used together with `-m`")) ∧
    (flagsQ.continueOnError = true → flagsQ.quietMode = false →
      (mainRun flagsQ).reachesEngine = false ∧
      (mainRun flagsQ).exitCode = some 1 ∧
      (flagsQ.args.length = 1 →
        mainRun flagsQ =
          MainOutcome.argErrorExit1 "`-k` must be used together with `-q`" ∧
        (mainRun flagsQ).stderrText = "`-k` must be used together with `-q`"))) :=
  ⟨rfl, c7_flag_sanity flagsQ rfl⟩

/-! ## Claim C10: log-file open failure -/

/-- C10: when the configured log-file path is non-empty and opening it
for append fails, `batchImport` returns the open error immediately: the
engine is never constructed, discovery never runs, no record is imported
— the run produces no events at all. -/
theorem c10_log_open_failure (cfg : Config) (w : World) (k : Bool)
    (cause : String) (hfile : cfg.logfile ≠ "")
    (hopen : w.logOpenErr = some cause) :
    batchImport cfg w k = ⟨[], [], some (RunError.logOpenError cause)⟩ := by
  have hlog : logOpenResult cfg w = some cause := by
    simp [logOpenResult, hfile, hopen]
  simp [batchImport, hlog]

theorem c10_log_open_failure_witness :
    (cfgLog.logfile ≠ "" ∧ worldLogFail.logOpenErr = some "permission denied") ∧
    batchImport cfgLog worldLogFail true =
      ⟨[], [], some (RunError.logOpenError "permission denied")⟩ :=
  ⟨⟨by decide, rfl⟩,
   c10_log_open_failure cfgLog worldLogFail true "permission denied"
     (by decide) rfl⟩

end Aztfy
